import Mathlib

/-!
Verification of the notes client in src/notes_frontend/src/routes/index.tsx.

The file shallowly embeds the data model (Note, UIState) and the view-state
controller operations (refresh, selectNote, onCreate, onSave, onDelete,
filteredNotes, setSearch, onTagClick) as pure Lean functions.  Asynchronous
remote calls are modelled by passing each operation the outcome of its remote
call as an `Except String` value (the error string is the thrown message);
the try/catch/finally structure of the source becomes a case split on that
outcome.  `Array.prototype.sort` with the comparator
`(a, b) => bd.localeCompare(ad)` is modelled as a stable comparator sort
(insertion sort), which is what ECMAScript guarantees; `localeCompare` is
modelled as code-point lexicographic comparison of the underlying character
lists.  JavaScript truthiness of strings (the empty string is falsy) is
modelled explicitly wherever the source relies on it.
-/

/-- The Note record of the source (id, title, content, optional tags and
timestamps).  Optional fields become Option. -/
structure Note where
  id : Nat
  title : String
  content : String
  tags : Option (List String)
  updated_at : Option String
  created_at : Option String
deriving DecidableEq

/-- The UIState store of the source.  The two busy signals (saving, deleting)
of the component are included as fields. -/
structure UIState where
  notes : List Note
  loading : Bool
  error : Option String
  selectedId : Option Nat
  editTitle : String
  editContent : String
  editTags : String
  search : String
  activeTag : Option String
  saving : Bool
  deleting : Bool
deriving DecidableEq

/-- The initialState constant of the source, extended with the two busy
signals (both start false). -/
def initialState : UIState :=
  { notes := []
    loading := true
    error := none
    selectedId := none
    editTitle := ""
    editContent := ""
    editTags := ""
    search := ""
    activeTag := none
    saving := false
    deleting := false }

/-- JavaScript string disjunction x || y for an optional string x: the empty
string is falsy, so it falls through to y. -/
def jsOrStr (a : Option String) (b : String) : String :=
  match a with
  | some s => if s = "" then b else s
  | none => b

/-- The sort key of refresh: a.updated_at || a.created_at || "" with
JavaScript truthiness (an empty updated_at or created_at falls through). -/
def effTimestamp (n : Note) : String :=
  jsOrStr n.updated_at (jsOrStr n.created_at "")

/-- Code-point lexicographic strict comparison of character lists; the model
of localeCompare returning a negative value. -/
def lexLtChars : List Char → List Char → Bool
  | _, [] => false
  | [], _ :: _ => true
  | a :: as, b :: bs =>
    if a.toNat < b.toNat then true
    else if b.toNat < a.toNat then false
    else lexLtChars as bs

/-- Strict lexicographic order on strings. -/
def lexLt (a b : String) : Bool :=
  lexLtChars a.data b.data

/-- Non-strict lexicographic order on strings. -/
def lexLe (a b : String) : Bool :=
  !(lexLt b a)

/-- Stable descending insertion by a string key: x is placed before the first
element whose key is at most the key of x.  Together with sortByKeyDesc this
is the unique stable descending comparator sort, hence the model of
Array.prototype.sort with the comparator of refresh. -/
def insertByKey (key : Note → String) (x : Note) : List Note → List Note
  | [] => [x]
  | h :: t => if lexLe (key h) (key x) then x :: h :: t else h :: insertByKey key x t

/-- Stable descending sort by a string key. -/
def sortByKeyDesc (key : Note → String) (l : List Note) : List Note :=
  l.foldr (insertByKey key) []

/-- The sort performed by refresh: stable descending by effTimestamp. -/
def sortNotes (l : List Note) : List Note :=
  sortByKeyDesc effTimestamp l

/-- Array.prototype.join with separator ", ", from the tag joins of the
source. -/
def joinComma : List String → String
  | [] => ""
  | [x] => x
  | x :: xs => x ++ ", " ++ joinComma xs

/-- Selection reconciliation of refresh (lines 156-163 of the source): keep
the selected id if still present, else fall back to the first entry, or to
none when the snapshot is empty; with nothing selected, default to the first
entry when the snapshot is non-empty. -/
def reconcileSelection (sel : Option Nat) (notes : List Note) : Option Nat :=
  match sel with
  | some id =>
    if notes.any (fun n => n.id == id) then some id
    else
      match notes with
      | [] => none
      | n :: _ => some n.id
  | none =>
    match notes with
    | [] => none
    | n :: _ => some n.id

/-- The buffer-loading block shared by selectNote, onCreate and refresh: find
the note with the given id and overwrite the edit buffer from it; leave the
buffer untouched when no such note exists. -/
def loadBufferFromFind (s : UIState) (id : Nat) : UIState :=
  match s.notes.find? (fun n => n.id == id) with
  | some n =>
    { s with
      editTitle := n.title
      editContent := n.content
      editTags := joinComma (n.tags.getD []) }
  | none => s

/-- The buffer part of refresh (lines 164-176): load from the selected note
when a note is selected, clear the three fields otherwise. -/
def loadBuffer (s : UIState) : UIState :=
  match s.selectedId with
  | some id => loadBufferFromFind s id
  | none => { s with editTitle := "", editContent := "", editTags := "" }

/-- The refresh operation (lines 146-182), with the outcome of the remote
list call passed in.  Sets loading and clears the error, then on success
replaces the snapshot with the sorted list, reconciles the selection and the
edit buffer; on failure records the thrown message; always clears loading. -/
def refresh (s : UIState) (result : Except String (List Note)) : UIState :=
  let s0 := { s with loading := true, error := none }
  match result with
  | Except.error msg => { s0 with error := some msg, loading := false }
  | Except.ok notes =>
    let sorted := sortNotes notes
    let s1 := { s0 with notes := sorted, selectedId := reconcileSelection s0.selectedId sorted }
    { loadBuffer s1 with loading := false }

/-- The selectNote operation (lines 204-212): set the selection and overwrite
the edit buffer from the note with that id when it exists. -/
def selectNote (s : UIState) (id : Nat) : UIState :=
  loadBufferFromFind { s with selectedId := some id } id

/-- The fields of a create request. -/
structure CreateReq where
  title : String
  content : String
  tags : List String
deriving DecidableEq

/-- The fixed create payload of onCreate (lines 217-221). -/
def createRequest : CreateReq :=
  { title := "Untitled", content := "", tags := [] }

/-- The onCreate operation (lines 214-235), with the outcomes of the remote
create call and of the list call of the inner refresh passed in.  On a
successful create it refreshes, then selects the created id and reloads the
buffer from it; on a failed create it records the error; the saving flag is
always cleared. -/
def onCreate (s : UIState) (createRes : Except String Note)
    (listRes : Except String (List Note)) : UIState :=
  let s0 := { s with saving := true }
  match createRes with
  | Except.error msg => { s0 with error := some msg, saving := false }
  | Except.ok created =>
    let s1 := refresh s0 listRes
    let s2 := loadBufferFromFind { s1 with selectedId := some created.id } created.id
    { s2 with saving := false }

/-- JavaScript String.prototype.split with separator "," on character lists. -/
def splitCommaChars : List Char → List (List Char)
  | [] => [[]]
  | c :: cs =>
    let rest := splitCommaChars cs
    if c = ',' then [] :: rest
    else
      match rest with
      | [] => [[c]]
      | r :: rs => (c :: r) :: rs

/-- JavaScript String.prototype.split with separator ",". -/
def splitComma (s : String) : List String :=
  (splitCommaChars s.data).map (fun l => ⟨l⟩)

/-- JavaScript String.prototype.trim: drop whitespace from both ends. -/
def jsTrim (s : String) : String :=
  ⟨((s.data.dropWhile Char.isWhitespace).reverse.dropWhile Char.isWhitespace).reverse⟩

/-- The tag parsing of onSave (lines 241-244): split on commas, trim each
piece, discard empty pieces (filter(Boolean)). -/
def parseTags (raw : String) : List String :=
  ((splitComma raw).map jsTrim).filter (fun t => t != "")

/-- The fields of an update request. -/
structure UpdateReq where
  id : Nat
  title : String
  content : String
  tags : List String
deriving DecidableEq

/-- The update payload submitted by onSave (lines 245-249): none when no note
is selected (onSave returns early), otherwise the full edit buffer with the
parsed tag list. -/
def saveRequest (s : UIState) : Option UpdateReq :=
  match s.selectedId with
  | none => none
  | some id =>
    some { id := id, title := s.editTitle, content := s.editContent, tags := parseTags s.editTags }

/-- The onSave operation (lines 237-256), with the outcomes of the remote
update call and of the list call of the inner refresh passed in.  No-op when
nothing is selected; on a successful update it refreshes; on a failed update
it records the error; the saving flag is cleared on every path taken past the
guard. -/
def onSave (s : UIState) (updateRes : Except String Note)
    (listRes : Except String (List Note)) : UIState :=
  match s.selectedId with
  | none => s
  | some _ =>
    let s0 := { s with saving := true }
    match updateRes with
    | Except.error msg => { s0 with error := some msg, saving := false }
    | Except.ok _ => { refresh s0 listRes with saving := false }

/-- The id submitted to the remote delete call by onDelete: none when nothing
is selected or the confirmation was declined. -/
def deleteRequest (s : UIState) (confirmed : Bool) : Option Nat :=
  match s.selectedId with
  | none => none
  | some id => if confirmed then some id else none

/-- The onDelete operation (lines 258-275), with the confirmation outcome and
the outcomes of the remote delete call and of the list call of the inner
refresh passed in.  No-op when nothing is selected or not confirmed; on a
successful delete it clears the selection and the edit buffer and refreshes;
on a failed delete it records the error; the deleting flag is cleared on
every path past the confirmation. -/
def onDelete (s : UIState) (confirmed : Bool) (delRes : Except String Unit)
    (listRes : Except String (List Note)) : UIState :=
  match s.selectedId with
  | none => s
  | some _ =>
    if !confirmed then s
    else
      let s0 := { s with deleting := true }
      match delRes with
      | Except.error msg => { s0 with error := some msg, deleting := false }
      | Except.ok _ =>
        let s1 := { s0 with selectedId := none, editTitle := "", editContent := "", editTags := "" }
        { refresh s1 listRes with deleting := false }

/-- The search-text mutation of the search input (line 298). -/
def setSearch (s : UIState) (q : String) : UIState :=
  { s with search := q }

/-- The onTagClick operation (lines 281-283): set or clear the active tag. -/
def onTagClick (s : UIState) (t : Option String) : UIState :=
  { s with activeTag := t }

/-- The filteredNotes derivation (lines 196-202): the snapshot, filtered by
the active tag when one is set; JavaScript truthiness makes an empty-string
active tag behave as unset. -/
def filteredNotes (s : UIState) : List Note :=
  match s.activeTag with
  | some t =>
    if t = "" then s.notes
    else s.notes.filter (fun n => (n.tags.getD []).contains t)
  | none => s.notes

/-- Modelled from the wording of the spec, for comparison with effTimestamp:
updated_at if present, else created_at, else the empty string. -/
def specEffTimestamp (n : Note) : String :=
  n.updated_at.getD (n.created_at.getD "")

/-- Stable descending sort by the spec wording of the effective timestamp,
for comparison with sortNotes. -/
def sortNotesSpec (l : List Note) : List Note :=
  sortByKeyDesc specEffTimestamp l

/-- Modelled from the wording of the spec, for comparison with filteredNotes:
snapshot unchanged if no active tag, otherwise filtered to the notes whose
tag sequence contains the active tag. -/
def visibleNotesSpec (notes : List Note) : Option String → List Note
  | none => notes
  | some t => notes.filter (fun n => (n.tags.getD []).contains t)

theorem char_eq_of_toNat_eq {a b : Char} (h : a.toNat = b.toNat) : a = b :=
  Char.eq_of_val_eq (UInt32.ext h)

theorem lexLtChars_nil_right (a : List Char) : lexLtChars a [] = false := by
  cases a <;> rfl

theorem lexLtChars_irrefl (l : List Char) : lexLtChars l l = false := by
  induction l with
  | nil => rfl
  | cons c cs ih => simp [lexLtChars, ih]

theorem lexLtChars_asymm : ∀ a b : List Char, lexLtChars a b = true → lexLtChars b a = false := by
  intro a
  induction a with
  | nil =>
    intro b h
    exact lexLtChars_nil_right b
  | cons x xs ih =>
    intro b h
    cases b with
    | nil => rw [lexLtChars_nil_right] at h; cases h
    | cons y ys =>
      simp only [lexLtChars] at h ⊢
      by_cases h1 : x.toNat < y.toNat
      · have h2 : ¬ y.toNat < x.toNat := by omega
        simp [h1, h2]
      · by_cases h2 : y.toNat < x.toNat
        · simp [h1, h2] at h
        · simp only [h1, h2, if_false] at h
          simp [h1, h2, ih ys h]

theorem lexLtChars_connex : ∀ a b : List Char,
    lexLtChars a b = false → lexLtChars b a = false → a = b := by
  intro a
  induction a with
  | nil =>
    intro b h1 h2
    cases b with
    | nil => rfl
    | cons y ys => simp [lexLtChars] at h1
  | cons x xs ih =>
    intro b h1 h2
    cases b with
    | nil => simp [lexLtChars] at h2
    | cons y ys =>
      simp only [lexLtChars] at h1 h2
      by_cases c1 : x.toNat < y.toNat
      · simp [c1] at h1
      · by_cases c2 : y.toNat < x.toNat
        · simp [c1, c2] at h2
        · simp only [c1, c2, if_false] at h1 h2
          have : x = y := char_eq_of_toNat_eq (by omega)
          rw [this, ih ys h1 h2]

theorem lexLtChars_trans : ∀ a b c : List Char,
    lexLtChars a b = true → lexLtChars b c = true → lexLtChars a c = true := by
  intro a
  induction a with
  | nil =>
    intro b c h1 h2
    cases c with
    | nil => rw [lexLtChars_nil_right] at h2; cases h2
    | cons z zs => rfl
  | cons x xs ih =>
    intro b c h1 h2
    cases b with
    | nil => rw [lexLtChars_nil_right] at h1; cases h1
    | cons y ys =>
      cases c with
      | nil => rw [lexLtChars_nil_right] at h2; cases h2
      | cons z zs =>
        simp only [lexLtChars] at h1 h2 ⊢
        by_cases c1 : x.toNat < y.toNat <;> by_cases c2 : y.toNat < z.toNat
        · simp [show x.toNat < z.toNat by omega]
        · simp only [c2, if_false] at h2
          by_cases c3 : z.toNat < y.toNat
          · simp [c3] at h2
          · have : y.toNat = z.toNat := by omega
            simp [show x.toNat < z.toNat by omega]
        · simp only [c1, if_false] at h1
          by_cases c3 : y.toNat < x.toNat
          · simp [c3] at h1
          · have : x.toNat = y.toNat := by omega
            simp [show x.toNat < z.toNat by omega]
        · simp only [c1, if_false] at h1
          by_cases c3 : y.toNat < x.toNat
          · simp [c3] at h1
          · simp only [c2, if_false] at h2
            by_cases c4 : z.toNat < y.toNat
            · simp [c4] at h2
            · rw [if_neg c3] at h1
              rw [if_neg c4] at h2
              have hx : ¬ x.toNat < z.toNat := by omega
              have hz : ¬ z.toNat < x.toNat := by omega
              simp [hx, hz, ih ys zs h1 h2]

theorem lexLe_refl (a : String) : lexLe a a = true := by
  simp [lexLe, lexLt, lexLtChars_irrefl]

theorem lexLe_total (a b : String) : lexLe a b = true ∨ lexLe b a = true := by
  by_cases h : lexLtChars b.data a.data = true
  · right
    simp [lexLe, lexLt, lexLtChars_asymm _ _ h]
  · left
    have h0 : lexLtChars b.data a.data = false := by
      revert h
      cases lexLtChars b.data a.data <;> simp
    simp [lexLe, lexLt, h0]

theorem lexLe_of_not {a b : String} (h : lexLe a b = false) : lexLe b a = true := by
  rcases lexLe_total a b with h1 | h1
  · rw [h1] at h; cases h
  · exact h1

theorem lexLe_trans {a b c : String} (h1 : lexLe a b = true) (h2 : lexLe b c = true) :
    lexLe a c = true := by
  simp only [lexLe, lexLt, Bool.not_eq_true'] at h1 h2 ⊢
  by_contra hcon
  have hc : lexLtChars c.data a.data = true := by
    revert hcon
    cases lexLtChars c.data a.data <;> simp
  cases hab : lexLtChars a.data b.data with
  | false =>
    have he : a.data = b.data := lexLtChars_connex _ _ hab h1
    rw [he] at hc
    rw [hc] at h2
    cases h2
  | true =>
    have : lexLtChars c.data b.data = true := lexLtChars_trans _ _ _ hc hab
    rw [this] at h2
    cases h2

theorem lexLe_empty_right {s : String} (h : lexLe s "" = true) : s = "" := by
  cases s with
  | mk l =>
    cases l with
    | nil => rfl
    | cons c cs => simp [lexLe, lexLt, lexLtChars] at h

theorem insertByKey_perm (key : Note → String) (x : Note) (l : List Note) :
    List.Perm (insertByKey key x l) (x :: l) := by
  induction l with
  | nil => exact List.Perm.refl _
  | cons h t ih =>
    by_cases hc : lexLe (key h) (key x) = true
    · simp [insertByKey, hc]
    · simp only [insertByKey, hc, if_false, Bool.false_eq_true]
      exact (ih.cons h).trans (List.Perm.swap x h t)

theorem sortByKeyDesc_perm (key : Note → String) (l : List Note) :
    List.Perm (sortByKeyDesc key l) l := by
  induction l with
  | nil => exact List.Perm.refl _
  | cons h t ih => exact (insertByKey_perm key h _).trans (ih.cons h)

theorem insertByKey_pairwise (key : Note → String) (x : Note) (l : List Note)
    (hl : l.Pairwise fun a b => lexLe (key b) (key a) = true) :
    (insertByKey key x l).Pairwise fun a b => lexLe (key b) (key a) = true := by
  induction l with
  | nil => simp [insertByKey]
  | cons h t ih =>
    rcases List.pairwise_cons.mp hl with ⟨hh, ht⟩
    by_cases hc : lexLe (key h) (key x) = true
    · simp only [insertByKey, hc, if_true]
      refine List.pairwise_cons.mpr ⟨?_, hl⟩
      intro y hy
      rcases List.mem_cons.mp hy with rfl | hyt
      · exact hc
      · exact lexLe_trans (hh y hyt) hc
    · have hx : lexLe (key x) (key h) = true := by
        apply lexLe_of_not
        revert hc
        cases lexLe (key h) (key x) <;> simp
      simp only [insertByKey, hc, if_false, Bool.false_eq_true]
      refine List.pairwise_cons.mpr ⟨?_, ih ht⟩
      intro y hy
      have hmem : y = x ∨ y ∈ t := by
        have := (insertByKey_perm key x t).mem_iff.mp hy
        simpa using this
      rcases hmem with rfl | hyt
      · exact hx
      · exact hh y hyt

theorem sortByKeyDesc_pairwise (key : Note → String) (l : List Note) :
    (sortByKeyDesc key l).Pairwise fun a b => lexLe (key b) (key a) = true := by
  induction l with
  | nil => simp [sortByKeyDesc]
  | cons h t ih => exact insertByKey_pairwise key h _ ih

theorem insertByKey_filter_eq (key : Note → String) (x : Note) (l : List Note) (k : String)
    (hx : key x = k) :
    (insertByKey key x l).filter (fun n => key n == k) =
      x :: l.filter (fun n => key n == k) := by
  induction l with
  | nil => simp [insertByKey, List.filter, hx]
  | cons h t ih =>
    by_cases hc : lexLe (key h) (key x) = true
    · simp only [insertByKey]
      rw [if_pos hc, List.filter_cons]
      simp [hx]
    · have hne : ¬ key h = k := by
        intro he
        rw [← hx] at he
        rw [he, lexLe_refl] at hc
        exact hc rfl
      simp [insertByKey, hc, List.filter_cons, hne, ih]

theorem insertByKey_filter_ne (key : Note → String) (x : Note) (l : List Note) (k : String)
    (hx : ¬ key x = k) :
    (insertByKey key x l).filter (fun n => key n == k) =
      l.filter (fun n => key n == k) := by
  induction l with
  | nil => simp [insertByKey, List.filter_cons, hx]
  | cons h t ih =>
    by_cases hc : lexLe (key h) (key x) = true
    · simp only [insertByKey]
      rw [if_pos hc, List.filter_cons, List.filter_cons]
      simp [hx]
    · simp [insertByKey, hc, List.filter_cons, ih]

theorem sortByKeyDesc_filter (key : Note → String) (l : List Note) (k : String) :
    (sortByKeyDesc key l).filter (fun n => key n == k) =
      l.filter (fun n => key n == k) := by
  induction l with
  | nil => rfl
  | cons h t ih =>
    have e : sortByKeyDesc key (h :: t) = insertByKey key h (sortByKeyDesc key t) := rfl
    rw [e]
    by_cases hk : key h = k
    · rw [insertByKey_filter_eq key h _ k hk, ih, List.filter_cons]
      simp [hk]
    · rw [insertByKey_filter_ne key h _ k hk, ih, List.filter_cons]
      simp [hk]

theorem refresh_err_eq (s : UIState) (m : String) :
    refresh s (Except.error m) = { s with error := some m, loading := false } := rfl

theorem refresh_ok_eq (s : UIState) (ns : List Note) :
    refresh s (Except.ok ns) =
      { loadBuffer
          { s with
            loading := true
            error := none
            notes := sortNotes ns
            selectedId := reconcileSelection s.selectedId (sortNotes ns) } with
        loading := false } := rfl

theorem loadBufferFromFind_frame (s : UIState) (id : Nat) :
    (loadBufferFromFind s id).notes = s.notes ∧
    (loadBufferFromFind s id).selectedId = s.selectedId ∧
    (loadBufferFromFind s id).error = s.error ∧
    (loadBufferFromFind s id).loading = s.loading ∧
    (loadBufferFromFind s id).saving = s.saving ∧
    (loadBufferFromFind s id).deleting = s.deleting := by
  unfold loadBufferFromFind
  cases s.notes.find? (fun n => n.id == id) <;> exact ⟨rfl, rfl, rfl, rfl, rfl, rfl⟩

theorem loadBufferFromFind_of_find {s : UIState} {id : Nat} {n : Note}
    (h : s.notes.find? (fun x => x.id == id) = some n) :
    loadBufferFromFind s id =
      { s with
        editTitle := n.title
        editContent := n.content
        editTags := joinComma (n.tags.getD []) } := by
  unfold loadBufferFromFind
  rw [h]

theorem loadBufferFromFind_of_none {s : UIState} {id : Nat}
    (h : s.notes.find? (fun x => x.id == id) = none) :
    loadBufferFromFind s id = s := by
  unfold loadBufferFromFind
  rw [h]

theorem loadBuffer_frame (s : UIState) :
    (loadBuffer s).notes = s.notes ∧
    (loadBuffer s).selectedId = s.selectedId ∧
    (loadBuffer s).error = s.error ∧
    (loadBuffer s).loading = s.loading ∧
    (loadBuffer s).saving = s.saving ∧
    (loadBuffer s).deleting = s.deleting := by
  unfold loadBuffer
  cases hsel : s.selectedId with
  | none => exact ⟨rfl, rfl, rfl, rfl, rfl, rfl⟩
  | some id =>
    have h := loadBufferFromFind_frame s id
    rw [hsel] at h
    exact h

theorem loadBuffer_of_some {s : UIState} {id : Nat} (h : s.selectedId = some id) :
    loadBuffer s = loadBufferFromFind s id := by
  unfold loadBuffer
  rw [h]

theorem loadBuffer_of_none {s : UIState} (h : s.selectedId = none) :
    loadBuffer s = { s with editTitle := "", editContent := "", editTags := "" } := by
  unfold loadBuffer
  rw [h]

theorem refresh_ok_notes (s : UIState) (ns : List Note) :
    (refresh s (Except.ok ns)).notes = sortNotes ns := by
  rw [refresh_ok_eq]
  exact (loadBuffer_frame _).1

theorem refresh_ok_selectedId (s : UIState) (ns : List Note) :
    (refresh s (Except.ok ns)).selectedId = reconcileSelection s.selectedId (sortNotes ns) := by
  rw [refresh_ok_eq]
  exact (loadBuffer_frame _).2.1

theorem refresh_ok_error (s : UIState) (ns : List Note) :
    (refresh s (Except.ok ns)).error = none := by
  rw [refresh_ok_eq]
  exact (loadBuffer_frame _).2.2.1

theorem reconcileSelection_none (l : List Note) :
    reconcileSelection none l = l.head?.map Note.id := by
  cases l <;> rfl

theorem reconcileSelection_some_mem (l : List Note) (id : Nat)
    (h : l.any (fun n => n.id == id) = true) :
    reconcileSelection (some id) l = some id := by
  simp [reconcileSelection, h]

theorem reconcileSelection_some_not (l : List Note) (id : Nat)
    (h : l.any (fun n => n.id == id) = false) :
    reconcileSelection (some id) l = l.head?.map Note.id := by
  cases l with
  | nil => rfl
  | cons a t =>
    have e : reconcileSelection (some id) (a :: t) =
        if ((a :: t).any fun n => n.id == id) = true then some id else some a.id := rfl
    rw [e, h]
    simp

theorem onCreate_ok_eq (s : UIState) (c : Note) (ns : List Note) :
    onCreate s (Except.ok c) (Except.ok ns)
      = { loadBufferFromFind
            { refresh { s with saving := true } (Except.ok ns) with selectedId := some c.id }
            c.id with
          saving := false } := rfl

theorem onCreate_ok_notes (s : UIState) (c : Note) (ns : List Note) :
    (onCreate s (Except.ok c) (Except.ok ns)).notes = sortNotes ns := by
  rw [onCreate_ok_eq]
  exact ((loadBufferFromFind_frame _ _).1).trans (refresh_ok_notes _ _)

theorem onCreate_ok_selectedId (s : UIState) (c : Note) (ns : List Note) :
    (onCreate s (Except.ok c) (Except.ok ns)).selectedId = some c.id := by
  rw [onCreate_ok_eq]
  exact (loadBufferFromFind_frame _ _).2.1

theorem onCreate_ok_buffer (s : UIState) (c : Note) (ns : List Note) (n : Note)
    (h : (sortNotes ns).find? (fun x => x.id == c.id) = some n) :
    (onCreate s (Except.ok c) (Except.ok ns)).editTitle = n.title ∧
    (onCreate s (Except.ok c) (Except.ok ns)).editContent = n.content ∧
    (onCreate s (Except.ok c) (Except.ok ns)).editTags = joinComma (n.tags.getD []) := by
  rw [onCreate_ok_eq]
  have hnotes : ({ refresh { s with saving := true } (Except.ok ns) with
      selectedId := some c.id } : UIState).notes = sortNotes ns := refresh_ok_notes _ _
  have h2 : ({ refresh { s with saving := true } (Except.ok ns) with
      selectedId := some c.id } : UIState).notes.find? (fun x => x.id == c.id) = some n := by
    rw [hnotes]
    exact h
  rw [loadBufferFromFind_of_find h2]
  exact ⟨rfl, rfl, rfl⟩

/-- Claim C1, counterexample to the claim as stated: the claim takes the
effective timestamp to be updated_at whenever it is present, but the source
uses JavaScript truthiness, so a present-but-empty updated_at falls through
to created_at.  With note 1 carrying updated_at = some "" and
created_at = some "9", and note 2 carrying updated_at = some "5", the claim
puts note 2 first (its key "5" beats the empty key of note 1), while refresh
puts note 1 first (its code key is "9"); the snapshot also differs from the
stable descending sort by the claimed key. -/
theorem refresh_sortKey_counterexample :
    (refresh initialState (Except.ok
        [⟨1, "", "", none, some "", some "9"⟩, ⟨2, "", "", none, some "5", none⟩])).notes
      = [⟨1, "", "", none, some "", some "9"⟩, ⟨2, "", "", none, some "5", none⟩] ∧
    lexLt (specEffTimestamp ⟨1, "", "", none, some "", some "9"⟩)
        (specEffTimestamp ⟨2, "", "", none, some "5", none⟩) = true ∧
    (refresh initialState (Except.ok
        [⟨1, "", "", none, some "", some "9"⟩, ⟨2, "", "", none, some "5", none⟩])).notes
      ≠ sortNotesSpec [⟨1, "", "", none, some "", some "9"⟩, ⟨2, "", "", none, some "5", none⟩] :=
  ⟨by decide, by decide, by decide⟩

/-- Claim C1 (amended: the effective timestamp is updated_at if present and
non-empty, else created_at if present and non-empty, else the empty string,
per JavaScript truthiness): after every successful refresh the snapshot is
the remote list stably sorted descending by effective timestamp under
code-point lexicographic comparison of the raw timestamp strings, and notes
with an empty effective timestamp form a suffix of the snapshot. -/
theorem refresh_sorted_snapshot (s : UIState) (ns : List Note) :
    (refresh s (Except.ok ns)).notes = sortNotes ns ∧
    List.Perm (sortNotes ns) ns ∧
    (sortNotes ns).Pairwise (fun a b => lexLe (effTimestamp b) (effTimestamp a) = true) ∧
    (∀ k : String, (sortNotes ns).filter (fun n => effTimestamp n == k) =
      ns.filter (fun n => effTimestamp n == k)) ∧
    (sortNotes ns).Pairwise (fun a b => effTimestamp a = "" → effTimestamp b = "") := by
  refine ⟨refresh_ok_notes s ns, sortByKeyDesc_perm _ _, sortByKeyDesc_pairwise _ _,
    fun k => sortByKeyDesc_filter _ _ _, ?_⟩
  exact (sortByKeyDesc_pairwise effTimestamp ns).imp fun hab ha => lexLe_empty_right (ha ▸ hab)

/-- Witness for C1 at a concrete snapshot. -/
theorem refresh_sorted_snapshot_wit :
    (refresh initialState (Except.ok [⟨4, "a", "b", none, some "x", none⟩])).notes
      = sortNotes [⟨4, "a", "b", none, some "x", none⟩] :=
  (refresh_sorted_snapshot initialState [⟨4, "a", "b", none, some "x", none⟩]).1

/-- Claim C2: selection reconciliation after a successful refresh.  With no
previous selection the selection becomes the first entry of the new snapshot
(none when it is empty); a still-present selected id is kept; a selected id
absent from the new snapshot falls back to the first entry (none when the
snapshot is empty). -/
theorem refresh_selection (s : UIState) (ns : List Note) :
    (s.selectedId = none →
      (refresh s (Except.ok ns)).selectedId = (sortNotes ns).head?.map Note.id) ∧
    (∀ id, s.selectedId = some id →
      (sortNotes ns).any (fun n => n.id == id) = true →
      (refresh s (Except.ok ns)).selectedId = some id) ∧
    (∀ id, s.selectedId = some id →
      (sortNotes ns).any (fun n => n.id == id) = false →
      (refresh s (Except.ok ns)).selectedId = (sortNotes ns).head?.map Note.id) := by
  refine ⟨?_, ?_, ?_⟩
  · intro h
    rw [refresh_ok_selectedId, h, reconcileSelection_none]
  · intro id h hmem
    rw [refresh_ok_selectedId, h, reconcileSelection_some_mem _ _ hmem]
  · intro id h hmem
    rw [refresh_ok_selectedId, h, reconcileSelection_some_not _ _ hmem]

/-- Witness for C2: the documented scenario, selected id 5, new snapshot with
ids 3 and 7; the selection falls back to the first sorted entry, id 3. -/
theorem refresh_selection_wit :
    (refresh { initialState with selectedId := some 5 }
        (Except.ok [⟨3, "", "", none, some "b", none⟩, ⟨7, "", "", none, some "a", none⟩])).selectedId
      = some 3 := by
  have h := (refresh_selection { initialState with selectedId := some 5 }
      [⟨3, "", "", none, some "b", none⟩, ⟨7, "", "", none, some "a", none⟩]).2.2 5 rfl (by decide)
  exact h.trans (by decide)

/-- Claim C3: immediately after selectNote of an id present in the snapshot,
and immediately after every successful refresh, the edit buffer equals the
title, the content and the comma-space joined tags of the selected note; and
after a successful refresh with no selection the three buffer fields are
empty. -/
theorem buffer_matches_selection (s : UIState) (ns : List Note) (id : Nat) :
    (∀ n, s.notes.find? (fun x => x.id == id) = some n →
      (selectNote s id).selectedId = some id ∧
      (selectNote s id).editTitle = n.title ∧
      (selectNote s id).editContent = n.content ∧
      (selectNote s id).editTags = joinComma (n.tags.getD [])) ∧
    (∀ id2 n, (refresh s (Except.ok ns)).selectedId = some id2 →
      (refresh s (Except.ok ns)).notes.find? (fun x => x.id == id2) = some n →
      (refresh s (Except.ok ns)).editTitle = n.title ∧
      (refresh s (Except.ok ns)).editContent = n.content ∧
      (refresh s (Except.ok ns)).editTags = joinComma (n.tags.getD [])) ∧
    ((refresh s (Except.ok ns)).selectedId = none →
      (refresh s (Except.ok ns)).editTitle = "" ∧
      (refresh s (Except.ok ns)).editContent = "" ∧
      (refresh s (Except.ok ns)).editTags = "") := by
  refine ⟨?_, ?_, ?_⟩
  · intro n h
    have h2 : ({ s with selectedId := some id } : UIState).notes.find?
        (fun x => x.id == id) = some n := h
    unfold selectNote
    rw [loadBufferFromFind_of_find h2]
    exact ⟨rfl, rfl, rfl, rfl⟩
  · intro id2 n hsel hfind
    rw [refresh_ok_eq] at hsel hfind ⊢
    have hsel2 : ({ s with
        loading := true
        error := none
        notes := sortNotes ns
        selectedId := reconcileSelection s.selectedId (sortNotes ns) } : UIState).selectedId
        = some id2 := by
      rw [← (loadBuffer_frame _).2.1]
      exact hsel
    have hfind2 : ({ s with
        loading := true
        error := none
        notes := sortNotes ns
        selectedId := reconcileSelection s.selectedId (sortNotes ns) } : UIState).notes.find?
        (fun x => x.id == id2) = some n := by
      rw [← (loadBuffer_frame _).1]
      exact hfind
    rw [loadBuffer_of_some hsel2, loadBufferFromFind_of_find hfind2]
    exact ⟨rfl, rfl, rfl⟩
  · intro hsel
    rw [refresh_ok_eq] at hsel ⊢
    have hsel2 : ({ s with
        loading := true
        error := none
        notes := sortNotes ns
        selectedId := reconcileSelection s.selectedId (sortNotes ns) } : UIState).selectedId
        = none := by
      rw [← (loadBuffer_frame _).2.1]
      exact hsel
    rw [loadBuffer_of_none hsel2]
    exact ⟨rfl, rfl, rfl⟩

/-- Witness for C3 at a concrete selection. -/
theorem buffer_matches_selection_wit :
    (selectNote { initialState with notes := [⟨1, "T", "C", some ["a", "b"], none, none⟩] } 1).editTitle
      = "T" ∧
    (selectNote { initialState with notes := [⟨1, "T", "C", some ["a", "b"], none, none⟩] } 1).editTags
      = "a, b" := by
  have h := (buffer_matches_selection
      { initialState with notes := [⟨1, "T", "C", some ["a", "b"], none, none⟩] } [] 1).1
      ⟨1, "T", "C", some ["a", "b"], none, none⟩ (by decide)
  exact ⟨h.2.1, h.2.2.2.trans (by decide)⟩

/-- Claim C4, counterexample to the claim as stated: onCreate whose remote
list call (inside the follow-up refresh) fails is an operation with a failing
remote call, yet it does not preserve the pre-existing selection: starting
from selection 1, a successful create of note 2 followed by a failing
refresh leaves the selection at 2. -/
theorem controller_error_frame_counterexample :
    ({ initialState with
        notes := [⟨1, "One", "", none, some "2", none⟩]
        selectedId := some 1
        loading := false } : UIState).selectedId = some 1 ∧
    (onCreate
        { initialState with
          notes := [⟨1, "One", "", none, some "2", none⟩]
          selectedId := some 1
          loading := false }
        (Except.ok ⟨2, "Untitled", "", some [], none, none⟩)
        (Except.error "boom")).selectedId ≠ some 1 :=
  ⟨by decide, by decide⟩

/-- Claim C4 (amended: the frame property holds for the primary remote call
of each operation, that is the list call of refresh, the create call of
onCreate, the update call of onSave and the delete call of onDelete; when
the primary call succeeds but the follow-up refresh fails, the snapshot is
still preserved and the error recorded with the flags cleared, but onCreate
moves the selection to the created id, leaving the buffer untouched when
that id is not in the stale snapshot, and onDelete has already cleared the
selection and the buffer by design; no exception escapes, which the model
expresses by every operation being a total function). -/
theorem controller_error_frame (s : UIState) (id : Nat) (m : String) (c n : Note)
    (lr : Except String (List Note)) :
    (refresh s (Except.error m) = { s with error := some m, loading := false }) ∧
    (onCreate s (Except.error m) lr = { s with error := some m, saving := false }) ∧
    (s.selectedId = some id →
      onSave s (Except.error m) lr = { s with error := some m, saving := false }) ∧
    (s.selectedId = some id →
      onSave s (Except.ok n) (Except.error m)
        = { s with
            error := some m
            loading := false
            saving := false }) ∧
    (s.selectedId = some id →
      onDelete s true (Except.error m) lr = { s with error := some m, deleting := false }) ∧
    (s.notes.find? (fun x => x.id == c.id) = none →
      onCreate s (Except.ok c) (Except.error m)
        = { s with
            error := some m
            loading := false
            saving := false
            selectedId := some c.id }) ∧
    (s.selectedId = some id →
      onDelete s true (Except.ok ()) (Except.error m)
        = { s with
            selectedId := none
            editTitle := ""
            editContent := ""
            editTags := ""
            error := some m
            loading := false
            deleting := false }) := by
  refine ⟨rfl, rfl, ?_, ?_, ?_, ?_, ?_⟩
  · intro h
    unfold onSave
    rw [h]
  · intro h
    unfold onSave
    rw [h]
    rfl
  · intro h
    unfold onDelete
    rw [h]
    rfl
  · intro h
    have h2 : ({ refresh { s with saving := true } (Except.error m) with
        selectedId := some c.id } : UIState).notes.find? (fun x => x.id == c.id) = none := h
    calc onCreate s (Except.ok c) (Except.error m)
        = { loadBufferFromFind
              { refresh { s with saving := true } (Except.error m) with
                selectedId := some c.id } c.id with
            saving := false } := rfl
      _ = _ := by
        rw [loadBufferFromFind_of_none h2]
        rfl
  · intro h
    unfold onDelete
    rw [h]
    rfl

/-- Witness for C4 on a failing save. -/
theorem controller_error_frame_wit :
    onSave { initialState with selectedId := some 1 } (Except.error "E500") (Except.ok [])
      = { { initialState with selectedId := some 1 } with error := some "E500", saving := false } :=
  (controller_error_frame { initialState with selectedId := some 1 } 1 "E500"
    ⟨0, "", "", none, none, none⟩ ⟨0, "", "", none, none, none⟩ (Except.ok [])).2.2.1 rfl

/-- Claim C5: with a note selected, onSave submits the edit buffer with the
tag string split on commas, each piece trimmed and empty pieces discarded;
on the concrete buffer "a, b ,, c" the submitted tags are a, b, c. -/
theorem save_submits_parsed_tags (s : UIState) (id : Nat) :
    (s.selectedId = some id →
      saveRequest s = some
        { id := id
          title := s.editTitle
          content := s.editContent
          tags := ((splitComma s.editTags).map jsTrim).filter (fun t => t != "") }) ∧
    parseTags "a, b ,, c" = ["a", "b", "c"] := by
  refine ⟨?_, by decide⟩
  intro h
  unfold saveRequest
  rw [h]
  rfl

/-- Witness for C5 at a concrete buffer. -/
theorem save_submits_parsed_tags_wit :
    saveRequest { initialState with selectedId := some 7, editTitle := "T", editTags := "x, y" }
      = some { id := 7, title := "T", content := "", tags := ["x", "y"] } := by
  have h := (save_submits_parsed_tags
      { initialState with selectedId := some 7, editTitle := "T", editTags := "x, y" } 7).1 rfl
  exact h.trans (by decide)

/-- Claim C6, counterexample to the claim as stated: with the active tag set
to the empty string the claim filters to the notes whose tags contain the
empty string, but the source checks JavaScript truthiness of the active tag,
so the empty string behaves as no filter and the snapshot is returned
unchanged. -/
theorem visible_notes_counterexample :
    filteredNotes { initialState with
        notes := [⟨1, "t", "c", some ["x"], none, none⟩]
        activeTag := some "" }
      ≠ visibleNotesSpec [⟨1, "t", "c", some ["x"], none, none⟩] (some "") ∧
    filteredNotes { initialState with
        notes := [⟨1, "t", "c", some ["x"], none, none⟩]
        activeTag := some "" }
      = [⟨1, "t", "c", some ["x"], none, none⟩] :=
  ⟨by decide, by decide⟩

/-- Claim C6 (amended: the snapshot is returned unchanged when no active tag
is set and also when the active tag is the empty string, per JavaScript
truthiness; for a non-empty active tag the result is exactly the notes whose
tag sequence contains it, in the snapshot order without re-sorting). -/
theorem visible_notes_spec (s : UIState) :
    (s.activeTag = none → filteredNotes s = s.notes) ∧
    (s.activeTag = some "" → filteredNotes s = s.notes) ∧
    (∀ t, s.activeTag = some t → ¬ t = "" →
      filteredNotes s = s.notes.filter (fun n => (n.tags.getD []).contains t) ∧
      List.Sublist (filteredNotes s) s.notes) := by
  refine ⟨?_, ?_, ?_⟩
  · intro h
    unfold filteredNotes
    rw [h]
  · intro h
    unfold filteredNotes
    rw [h]
    simp
  · intro t h ht
    have e : filteredNotes s =
        if t = "" then s.notes
        else s.notes.filter (fun n => (n.tags.getD []).contains t) := by
      unfold filteredNotes
      rw [h]
    rw [e, if_neg ht]
    exact ⟨rfl, List.filter_sublist _⟩

/-- Witness for C6 with the documented tag. -/
theorem visible_notes_spec_wit :
    filteredNotes { initialState with
        notes := [⟨1, "a", "", some ["work"], none, none⟩, ⟨2, "b", "", some ["home"], none, none⟩],
        activeTag := some "work" }
      = [⟨1, "a", "", some ["work"], none, none⟩] := by
  have h := ((visible_notes_spec { initialState with
      notes := [⟨1, "a", "", some ["work"], none, none⟩, ⟨2, "b", "", some ["home"], none, none⟩],
      activeTag := some "work" }).2.2 "work" rfl (by decide)).1
  exact h.trans (by decide)

/-- Claim C7: onCreate submits the fixed create payload (the "Untitled"
placeholder title, empty content, empty tag list); on success it refreshes,
selects the created id and reloads the buffer from the note found under that
id in the new snapshot; and starting from an empty snapshot, a create whose
refresh returns exactly the created note yields a one-note snapshot, that
note selected, and the edit buffer holding its default fields. -/
theorem onCreate_spec (s : UIState) (c : Note) (ns : List Note) (cid : Nat) :
    createRequest = { title := "Untitled", content := "", tags := [] } ∧
    (onCreate s (Except.ok c) (Except.ok ns)).notes = sortNotes ns ∧
    (onCreate s (Except.ok c) (Except.ok ns)).selectedId = some c.id ∧
    (∀ n, (sortNotes ns).find? (fun x => x.id == c.id) = some n →
      (onCreate s (Except.ok c) (Except.ok ns)).editTitle = n.title ∧
      (onCreate s (Except.ok c) (Except.ok ns)).editContent = n.content ∧
      (onCreate s (Except.ok c) (Except.ok ns)).editTags = joinComma (n.tags.getD [])) ∧
    (s.notes = [] →
      (onCreate s (Except.ok ⟨cid, "Untitled", "", some [], none, none⟩)
          (Except.ok [⟨cid, "Untitled", "", some [], none, none⟩])).notes
        = [⟨cid, "Untitled", "", some [], none, none⟩] ∧
      (onCreate s (Except.ok ⟨cid, "Untitled", "", some [], none, none⟩)
          (Except.ok [⟨cid, "Untitled", "", some [], none, none⟩])).selectedId = some cid ∧
      (onCreate s (Except.ok ⟨cid, "Untitled", "", some [], none, none⟩)
          (Except.ok [⟨cid, "Untitled", "", some [], none, none⟩])).editTitle = "Untitled" ∧
      (onCreate s (Except.ok ⟨cid, "Untitled", "", some [], none, none⟩)
          (Except.ok [⟨cid, "Untitled", "", some [], none, none⟩])).editContent = "" ∧
      (onCreate s (Except.ok ⟨cid, "Untitled", "", some [], none, none⟩)
          (Except.ok [⟨cid, "Untitled", "", some [], none, none⟩])).editTags = "") := by
  refine ⟨rfl, onCreate_ok_notes s c ns, onCreate_ok_selectedId s c ns,
    fun n h => onCreate_ok_buffer s c ns n h, ?_⟩
  intro hempty
  have hfind : (sortNotes [(⟨cid, "Untitled", "", some [], none, none⟩ : Note)]).find?
      (fun x => x.id == (⟨cid, "Untitled", "", some [], none, none⟩ : Note).id)
      = some ⟨cid, "Untitled", "", some [], none, none⟩ := by
    simp [sortNotes, sortByKeyDesc, insertByKey, List.find?]
  have hbuf := onCreate_ok_buffer s ⟨cid, "Untitled", "", some [], none, none⟩
      [⟨cid, "Untitled", "", some [], none, none⟩] ⟨cid, "Untitled", "", some [], none, none⟩ hfind
  exact ⟨onCreate_ok_notes s _ _, onCreate_ok_selectedId s _ _, hbuf.1, hbuf.2.1, hbuf.2.2⟩

/-- Witness for C7: create on the empty initial state. -/
theorem onCreate_spec_wit :
    (onCreate initialState (Except.ok ⟨42, "Untitled", "", some [], none, none⟩)
        (Except.ok [⟨42, "Untitled", "", some [], none, none⟩])).selectedId = some 42 ∧
    (onCreate initialState (Except.ok ⟨42, "Untitled", "", some [], none, none⟩)
        (Except.ok [⟨42, "Untitled", "", some [], none, none⟩])).editTitle = "Untitled" := by
  have h := (onCreate_spec initialState ⟨42, "Untitled", "", some [], none, none⟩ [] 42).2.2.2.2 rfl
  exact ⟨h.2.1, h.2.2.1⟩

/-- Claim C8: onDelete is a no-op without a selection and without a
confirmation; with a confirmed selection it submits the remote delete of the
selected id, and on success clears the selection and the edit buffer and
then refreshes; deleting with a refresh returning the empty list leaves no
selection and an empty snapshot. -/
theorem onDelete_spec (s : UIState) (confirmed : Bool) (dr : Except String Unit)
    (lr : Except String (List Note)) (id : Nat) :
    (s.selectedId = none → onDelete s confirmed dr lr = s) ∧
    (onDelete s false dr lr = s) ∧
    (s.selectedId = some id → deleteRequest s true = some id) ∧
    (s.selectedId = some id →
      onDelete s true (Except.ok ()) lr
        = { refresh { s with
              deleting := true
              selectedId := none
              editTitle := ""
              editContent := ""
              editTags := "" } lr with
            deleting := false }) ∧
    (s.selectedId = some id →
      (onDelete s true (Except.ok ()) (Except.ok [])).selectedId = none ∧
      (onDelete s true (Except.ok ()) (Except.ok [])).notes = []) := by
  refine ⟨?_, ?_, ?_, ?_, ?_⟩
  · intro h
    unfold onDelete
    rw [h]
  · unfold onDelete
    cases s.selectedId <;> rfl
  · intro h
    unfold deleteRequest
    rw [h]
    rfl
  · intro h
    unfold onDelete
    rw [h]
    rfl
  · intro h
    have e : onDelete s true (Except.ok ()) (Except.ok [])
        = { refresh { s with
              deleting := true
              selectedId := none
              editTitle := ""
              editContent := ""
              editTags := "" } (Except.ok []) with
            deleting := false } := by
      unfold onDelete
      rw [h]
      rfl
    rw [e]
    exact ⟨rfl, rfl⟩

/-- Witness for C8: deleting the only note. -/
theorem onDelete_spec_wit :
    (onDelete { initialState with
        notes := [⟨9, "x", "y", none, none, none⟩]
        selectedId := some 9 } true (Except.ok ()) (Except.ok [])).selectedId = none ∧
    (onDelete { initialState with
        notes := [⟨9, "x", "y", none, none, none⟩]
        selectedId := some 9 } true (Except.ok ()) (Except.ok [])).notes = [] :=
  (onDelete_spec { initialState with
      notes := [⟨9, "x", "y", none, none, none⟩]
      selectedId := some 9 } true (Except.ok ()) (Except.ok []) 9).2.2.2.2 rfl

/-- Claim C9: at operation boundaries (the states observable to the display
layer, each operation being atomic) the error field is changed only by an
operation succeeding (it becomes none) or failing (it becomes the new
message); the purely local operations selectNote, setSearch and onTagClick,
the guarded no-op paths of onSave and onDelete, and a declined confirmation
never touch it, so the most recent message persists until superseded. -/
theorem error_message_lifecycle (s : UIState) (id : Nat) (q t m : String)
    (ns : List Note) (c n : Note) (ur : Except String Note)
    (lr : Except String (List Note)) (dr : Except String Unit) :
    ((selectNote s id).error = s.error) ∧
    ((setSearch s q).error = s.error) ∧
    ((onTagClick s (some t)).error = s.error) ∧
    ((onTagClick s none).error = s.error) ∧
    ((refresh s (Except.ok ns)).error = none) ∧
    ((refresh s (Except.error m)).error = some m) ∧
    ((onCreate s (Except.error m) lr).error = some m) ∧
    ((onCreate s (Except.ok c) (Except.ok ns)).error = none) ∧
    ((onCreate s (Except.ok c) (Except.error m)).error = some m) ∧
    (s.selectedId = none → (onSave s ur lr).error = s.error) ∧
    (s.selectedId = some id → (onSave s (Except.error m) lr).error = some m) ∧
    (s.selectedId = some id → (onSave s (Except.ok n) (Except.ok ns)).error = none) ∧
    (s.selectedId = some id → (onSave s (Except.ok n) (Except.error m)).error = some m) ∧
    (s.selectedId = none → (onDelete s true dr lr).error = s.error) ∧
    ((onDelete s false dr lr).error = s.error) ∧
    (s.selectedId = some id → (onDelete s true (Except.error m) lr).error = some m) ∧
    (s.selectedId = some id → (onDelete s true (Except.ok ()) (Except.ok ns)).error = none) ∧
    (s.selectedId = some id → (onDelete s true (Except.ok ()) (Except.error m)).error = some m) := by
  refine ⟨(loadBufferFromFind_frame _ _).2.2.1, rfl, rfl, rfl, refresh_ok_error s ns, rfl, rfl,
    ?_, ?_, ?_, ?_, ?_, ?_, ?_, ?_, ?_, ?_, ?_⟩
  · rw [onCreate_ok_eq]
    exact ((loadBufferFromFind_frame _ _).2.2.1).trans (refresh_ok_error _ _)
  · exact (loadBufferFromFind_frame _ _).2.2.1
  · intro h
    have e : onSave s ur lr = s := by
      unfold onSave
      rw [h]
    rw [e]
  · intro h
    have e : onSave s (Except.error m) lr = { s with error := some m, saving := false } := by
      unfold onSave
      rw [h]
    rw [e]
  · intro h
    have e : onSave s (Except.ok n) (Except.ok ns)
        = { refresh { s with saving := true } (Except.ok ns) with saving := false } := by
      unfold onSave
      rw [h]
    rw [e]
    exact refresh_ok_error _ _
  · intro h
    have e : onSave s (Except.ok n) (Except.error m)
        = { s with error := some m, loading := false, saving := false } := by
      unfold onSave
      rw [h]
      rfl
    rw [e]
  · intro h
    have e : onDelete s true dr lr = s := by
      unfold onDelete
      rw [h]
    rw [e]
  · have e : onDelete s false dr lr = s := by
      unfold onDelete
      cases s.selectedId <;> rfl
    rw [e]
  · intro h
    have e : onDelete s true (Except.error m) lr
        = { s with error := some m, deleting := false } := by
      unfold onDelete
      rw [h]
      rfl
    rw [e]
  · intro h
    have e : onDelete s true (Except.ok ()) (Except.ok ns)
        = { refresh { s with
              deleting := true
              selectedId := none
              editTitle := ""
              editContent := ""
              editTags := "" } (Except.ok ns) with
            deleting := false } := by
      unfold onDelete
      rw [h]
      rfl
    rw [e]
    exact refresh_ok_error _ _
  · intro h
    have e : onDelete s true (Except.ok ()) (Except.error m)
        = { s with
            selectedId := none
            editTitle := ""
            editContent := ""
            editTags := ""
            error := some m
            loading := false
            deleting := false } := by
      unfold onDelete
      rw [h]
      rfl
    rw [e]

/-- Witness for C9: a failing save records its message. -/
theorem error_message_lifecycle_wit :
    (onSave { initialState with selectedId := some 3 } (Except.error "boom") (Except.ok [])).error
      = some "boom" :=
  (error_message_lifecycle { initialState with selectedId := some 3 } 3 "" "" "boom" []
      ⟨0, "", "", none, none, none⟩ ⟨0, "", "", none, none, none⟩
      (Except.ok ⟨0, "", "", none, none, none⟩) (Except.ok [])
      (Except.ok ())).2.2.2.2.2.2.2.2.2.2.1 rfl

/-- Claim C10: selectNote with an id absent from the snapshot sets the
dangling selection and leaves every other field, the edit buffer included,
unchanged. -/
theorem select_dangling (s : UIState) (id : Nat)
    (h : s.notes.find? (fun n => n.id == id) = none) :
    selectNote s id = { s with selectedId := some id } := by
  unfold selectNote
  exact loadBufferFromFind_of_none h

/-- Witness for C10: selecting id 5 in the empty initial snapshot. -/
theorem select_dangling_wit :
    selectNote initialState 5 = { initialState with selectedId := some 5 } :=
  select_dangling initialState 5 rfl
